import Mathlib

/-!
A shallow embedding of the `semaphore` package's etcd lock client
(`src/etcd.go`) together with the external key-value store it talks to,
and proofs of the specified properties of `Init`, `Get` and `Set`.

The store (etcd) is an external collaborator; it is modelled from its
interface contract: `get` is a linearizable read, `create` is an atomic
create-if-absent, and `set key value expectedVersion` is an atomic
compare-and-set that fails when the current version differs.
-/

namespace EtcdSem

/-- The JSON payload stored under the key.  Fields follow the record layout:
`semaphore` (remaining slots), `max` (capacity), `holders` (ordered holder
identifiers).  There is no version field in the payload. -/
structure Payload where
  semaphore : Int
  max : Int
  holders : List String
deriving DecidableEq

/-- The value stored at the key: either a well-formed encoded payload or
bytes that do not deserialize to the expected shape. -/
inductive EncodedValue where
  | ok (p : Payload)
  | garbage (s : String)
deriving DecidableEq

/-- An etcd response node: the stored value plus the store-assigned
modification index (the version token), carried out-of-band. -/
structure Node where
  Value : EncodedValue
  ModifiedIndex : Nat
deriving DecidableEq

/-- Error kinds surfaced by the store and the client, as a tagged
enumeration: `nodeExist` (create on an existing key,
`client.ErrorCodeNodeExist`), `keyNotFound` (read of an absent key),
`testFailed` (compare-and-set precondition failed — the conflict kind),
`network` (transport failure), `decodeError` (stored bytes do not
deserialize), `invalidArgument` (nil semaphore passed to `Set`). -/
inductive StoreError where
  | nodeExist
  | keyNotFound
  | testFailed
  | network
  | decodeError
  | invalidArgument
deriving DecidableEq

/-- The `Semaphore` record manipulated by the client: `Index` is the
store-assigned version token (uint64, modelled as `Nat`; overflow plays no
role here), `Semaphore` the remaining slots, `Max` the capacity, `Holders`
the holder identifiers (Go `nil` slice modelled as `[]`). -/
structure Semaphore where
  Index : Nat
  Semaphore : Int
  Max : Int
  Holders : List String
deriving DecidableEq

/-- Modelled from the spec: the serialization of a `Semaphore` into the
stored payload.  The struct declaration carrying the JSON tags lives in a
repository file that is not under `src/` (only `etcd.go` is), so the
encoding follows the spec's record layout: the payload carries the
capacity, the remaining slots and the holders, and the store-assigned
version is never embedded in the payload, so `Index` is omitted.
`json.Marshal` cannot fail on this struct, so `marshal` is total. -/
def marshal (s : Semaphore) : EncodedValue :=
  .ok ⟨s.Semaphore, s.Max, s.Holders⟩

/-- Modelled from the spec: deserialization of a stored value into a
`Semaphore` (`json.Unmarshal` into a zero value).  Since the payload
carries no version field, the decoded `Index` is the zero value `0`;
bytes of the wrong shape fail with the decode-error kind. -/
def unmarshal (v : EncodedValue) : Except StoreError Semaphore :=
  match v with
  | .ok p => .ok ⟨0, p.semaphore, p.max, p.holders⟩
  | .garbage _ => .error .decodeError

/-- The `KeysAPI` interface the client is parameterized over (key path and
context dropped: the client owns a single key).  `σ` is the state of the
backing store implementation, threaded explicitly. -/
structure KeysAPI (σ : Type) where
  get : σ → Except StoreError Node × σ
  create : EncodedValue → σ → Except StoreError Node × σ
  set : EncodedValue → Nat → σ → Except StoreError Node × σ

/-- The initial semaphore written by `Init`: open, one slot, no holders. -/
def initSem : Semaphore := ⟨0, 1, 1, []⟩

/-- `EtcdLockClient.Init`: marshals the initial semaphore and attempts an
unconditional create.  A failure of the node-exists kind means another
client initialized first and is absorbed as success; any other failure is
returned to the caller. -/
def EtcdLockClient.Init (api : KeysAPI σ) (st : σ) :
    Except StoreError Unit × σ :=
  let b := marshal initSem
  match api.create b st with
  | (.error e, st') =>
    match e with
    | .nodeExist => (.ok (), st')
    | _ => (.error e, st')
  | (.ok _, st') => (.ok (), st')

/-- `EtcdLockClient.Get`: reads the key, deserializes the stored value and
stamps the returned semaphore's `Index` with the `ModifiedIndex` the store
reported for this read.  Read failures and decode failures are returned. -/
def EtcdLockClient.Get (api : KeysAPI σ) (st : σ) :
    Except StoreError Semaphore × σ :=
  match api.get st with
  | (.error e, st') => (.error e, st')
  | (.ok node, st') =>
    match unmarshal node.Value with
    | .error e => (.error e, st')
    | .ok sem => (.ok { sem with Index := node.ModifiedIndex }, st')

/-- `EtcdLockClient.Set`: rejects a nil semaphore without contacting the
store; otherwise marshals the semaphore and issues one conditional write
with `PrevIndex := sem.Index`, returning the store's error unchanged. -/
def EtcdLockClient.Set (api : KeysAPI σ) (sem : Option Semaphore) (st : σ) :
    Except StoreError Unit × σ :=
  match sem with
  | none => (.error .invalidArgument, st)
  | some s =>
    let b := marshal s
    match api.set b s.Index st with
    | (.error e, st') => (.error e, st')
    | (.ok _, st') => (.ok (), st')

/-- The state of the backing store for the single key: the current node,
if the key exists, and the next version token the store will assign. -/
structure EtcdStore where
  node : Option Node
  nextIndex : Nat
deriving DecidableEq

/-- The store semantics, from the collaborator's interface contract:
`get` is a read (key absent fails with the not-found kind), `create` is an
atomic create-if-absent, `set` is an atomic compare-and-set failing with
the conflict kind when the current version differs from the expected one.
Every successful write stores the fresh version `nextIndex`. -/
def specAPI : KeysAPI EtcdStore where
  get st :=
    match st.node with
    | some n => (.ok n, st)
    | none => (.error .keyNotFound, st)
  create v st :=
    match st.node with
    | some _ => (.error .nodeExist, st)
    | none => ((.ok ⟨v, st.nextIndex⟩), ⟨some ⟨v, st.nextIndex⟩, st.nextIndex + 1⟩)
  set v idx st :=
    match st.node with
    | none => (.error .keyNotFound, st)
    | some n =>
      if n.ModifiedIndex = idx then
        ((.ok ⟨v, st.nextIndex⟩), ⟨some ⟨v, st.nextIndex⟩, st.nextIndex + 1⟩)
      else
        (.error .testFailed, st)

/-- One recorded call to the store, with the arguments that matter:
the written value and, for the conditional write, the expected version. -/
inductive StoreCall where
  | get
  | create (value : EncodedValue)
  | set (value : EncodedValue) (prevIndex : Nat)
deriving DecidableEq

/-- Wraps any store implementation so that every call is appended to a
log, leaving the behavior unchanged.  Used to count and inspect the store
calls a client operation issues. -/
def traced (api : KeysAPI σ) : KeysAPI (σ × List StoreCall) where
  get := fun p =>
    let r := api.get p.1
    (r.1, (r.2, p.2 ++ [.get]))
  create := fun v p =>
    let r := api.create v p.1
    (r.1, (r.2, p.2 ++ [.create v]))
  set := fun v idx p =>
    let r := api.set v idx p.1
    (r.1, (r.2, p.2 ++ [.set v idx]))

/-- C2: when the key is absent, `Init` creates the record in its fully-open
starting form — capacity 1, available 1, empty holders — with the store's
next version, and returns success. -/
theorem init_creates_open_record (st : EtcdStore) (h : st.node = none) :
    EtcdLockClient.Init specAPI st =
      (.ok (), ⟨some ⟨.ok ⟨1, 1, []⟩, st.nextIndex⟩, st.nextIndex + 1⟩) := by
  simp [EtcdLockClient.Init, specAPI, marshal, initSem, h]

/-- Witness for C2: a concrete empty store on which `Init` creates the
fully-open record. -/
theorem init_creates_open_record_witness :
    EtcdLockClient.Init specAPI ⟨none, 1⟩ =
      (.ok (), ⟨some ⟨.ok ⟨1, 1, []⟩, 1⟩, 2⟩) :=
  init_creates_open_record ⟨none, 1⟩ rfl

/-- C8: `Set` with a nil semaphore fails with the invalid-argument kind,
leaves any backing store untouched, and — as the call log of the traced
store shows — issues zero store calls. -/
theorem set_nil_rejected_locally :
    ∀ (σ : Type) (api : KeysAPI σ) (st : σ),
      EtcdLockClient.Set api none st = (.error .invalidArgument, st) ∧
      EtcdLockClient.Set (traced api) none (st, []) =
        (.error .invalidArgument, (st, [])) := by
  intro σ api st
  exact ⟨rfl, rfl⟩

/-- C1: `Set` on a non-nil semaphore issues exactly one store call — a
conditional write whose expected version is `sem.Index` — against any
backing store, and against the store semantics that write can succeed only
when the store's current version equals `sem.Index`. -/
theorem set_conditional_write :
    (∀ (σ : Type) (api : KeysAPI σ) (sem : Semaphore) (st : σ),
      (EtcdLockClient.Set (traced api) (some sem) (st, [])).2.2 =
        [StoreCall.set (marshal sem) sem.Index]) ∧
    (∀ (sem : Semaphore) (st : EtcdStore),
      (EtcdLockClient.Set specAPI (some sem) st).1 = .ok () →
      ∃ n, st.node = some n ∧ n.ModifiedIndex = sem.Index) := by
  constructor
  · intro σ api sem st
    rcases h : api.set (marshal sem) sem.Index st with ⟨r, st'⟩
    rcases r with e | n <;> simp [EtcdLockClient.Set, traced, h]
  · intro sem st h
    rcases hn : st.node with _ | n
    · simp [EtcdLockClient.Set, specAPI, hn] at h
    · refine ⟨n, rfl, ?_⟩
      by_contra hne
      simp [EtcdLockClient.Set, specAPI, hn, hne] at h

/-- Witness for C1: a concrete successful conditional write, from which the
store's current version is recovered as equal to the semaphore's. -/
theorem set_conditional_write_witness :
    ∃ n, (EtcdStore.mk (some ⟨.ok ⟨1, 1, []⟩, 3⟩) 4).node = some n ∧
      n.ModifiedIndex = (Semaphore.mk 3 0 1 ["a"]).Index :=
  set_conditional_write.2 ⟨3, 0, 1, ["a"]⟩ ⟨some ⟨.ok ⟨1, 1, []⟩, 3⟩, 4⟩ rfl

/-- C3: whenever the store's read returns a node, a successful `Get` returns
the decoded semaphore with its `Index` stamped from that very node's
`ModifiedIndex`, whatever index the decoded payload carried. -/
theorem get_stamps_version_from_read
    (σ : Type) (api : KeysAPI σ) (st st' : σ) (node : Node) (d : Semaphore)
    (hget : api.get st = (.ok node, st'))
    (hdec : unmarshal node.Value = .ok d) :
    EtcdLockClient.Get api st =
      (.ok { d with Index := node.ModifiedIndex }, st') := by
  simp [EtcdLockClient.Get, hget, hdec]

/-- Witness for C3: a concrete read whose stored payload decodes with index
zero and whose returned semaphore carries the node's modified index 7. -/
theorem get_stamps_version_from_read_witness :
    EtcdLockClient.Get specAPI ⟨some ⟨.ok ⟨0, 1, ["a"]⟩, 7⟩, 8⟩ =
      (.ok ⟨7, 0, 1, ["a"]⟩, ⟨some ⟨.ok ⟨0, 1, ["a"]⟩, 7⟩, 8⟩) :=
  get_stamps_version_from_read EtcdStore specAPI _ _ ⟨.ok ⟨0, 1, ["a"]⟩, 7⟩
    ⟨0, 0, 1, ["a"]⟩ rfl rfl

/-- C9: `Get` fails in exactly two situations — the read fails or the key
is absent (the read's error kind, not-found against the store semantics,
or whatever kind an arbitrary backing store reports, propagated intact),
and the stored bytes do not deserialize (the decode-error kind); on a
well-formed stored payload it succeeds. -/
theorem get_failure_modes :
    (∀ st : EtcdStore, st.node = none →
      EtcdLockClient.Get specAPI st = (.error .keyNotFound, st)) ∧
    (∀ (st : EtcdStore) (n : Node) (s : String),
      st.node = some n → n.Value = .garbage s →
      EtcdLockClient.Get specAPI st = (.error .decodeError, st)) ∧
    (∀ (st : EtcdStore) (n : Node) (p : Payload),
      st.node = some n → n.Value = .ok p →
      EtcdLockClient.Get specAPI st =
        (.ok ⟨n.ModifiedIndex, p.semaphore, p.max, p.holders⟩, st)) ∧
    (∀ (σ : Type) (api : KeysAPI σ) (st st' : σ) (e : StoreError),
      api.get st = (.error e, st') →
      EtcdLockClient.Get api st = (.error e, st')) := by
  refine ⟨?_, ?_, ?_, ?_⟩
  · intro st h
    simp [EtcdLockClient.Get, specAPI, h]
  · intro st n s hn hv
    simp [EtcdLockClient.Get, specAPI, hn, hv, unmarshal]
  · intro st n p hn hv
    simp [EtcdLockClient.Get, specAPI, hn, hv, unmarshal]
  · intro σ api st st' e h
    simp [EtcdLockClient.Get, h]

/-- Witness for C9: a concrete store whose payload is garbage, on which
`Get` fails with the decode-error kind. -/
theorem get_failure_modes_witness :
    EtcdLockClient.Get specAPI ⟨some ⟨.garbage "oops", 4⟩, 5⟩ =
      (.error .decodeError, ⟨some ⟨.garbage "oops", 4⟩, 5⟩) :=
  get_failure_modes.2.1 ⟨some ⟨.garbage "oops", 4⟩, 5⟩ ⟨.garbage "oops", 4⟩
    "oops" rfl rfl

/-- C4: when the store's current version differs from `sem.Index` the
conditional write fails and `Set` returns the conflict kind, which is
distinct from every other error kind; against any backing store the client
performs exactly one write attempt (no internal retry) and returns any
store failure with its kind intact (nothing is swallowed). -/
theorem set_conflict_error_propagated :
    (∀ (sem : Semaphore) (n : Node) (i : Nat),
      n.ModifiedIndex ≠ sem.Index →
      EtcdLockClient.Set specAPI (some sem) ⟨some n, i⟩ =
        (.error .testFailed, ⟨some n, i⟩)) ∧
    (StoreError.testFailed ≠ .keyNotFound ∧ StoreError.testFailed ≠ .network ∧
      StoreError.testFailed ≠ .decodeError ∧
      StoreError.testFailed ≠ .invalidArgument ∧
      StoreError.testFailed ≠ .nodeExist) ∧
    (∀ (σ : Type) (api : KeysAPI σ) (sem : Semaphore) (st : σ),
      ((EtcdLockClient.Set (traced api) (some sem) (st, [])).2.2).length = 1) ∧
    (∀ (σ : Type) (api : KeysAPI σ) (sem : Semaphore) (st st' : σ)
      (e : StoreError),
      api.set (marshal sem) sem.Index st = (.error e, st') →
      EtcdLockClient.Set api (some sem) st = (.error e, st')) := by
  refine ⟨?_, by decide, ?_, ?_⟩
  · intro sem n i hne
    simp [EtcdLockClient.Set, specAPI, hne]
  · intro σ api sem st
    rcases h : api.set (marshal sem) sem.Index st with ⟨r, st'⟩
    rcases r with e | nd <;> simp [EtcdLockClient.Set, traced, h]
  · intro σ api sem st st' e h
    simp [EtcdLockClient.Set, h]

/-- Witness for C4: a concrete stale commit — store at version 9, semaphore
carrying version 3 — fails with the conflict kind and leaves the store
unchanged. -/
theorem set_conflict_error_propagated_witness :
    EtcdLockClient.Set specAPI (some ⟨3, 0, 1, ["a"]⟩)
        ⟨some ⟨.ok ⟨0, 1, ["b"]⟩, 9⟩, 10⟩ =
      (.error .testFailed, ⟨some ⟨.ok ⟨0, 1, ["b"]⟩, 9⟩, 10⟩) :=
  set_conflict_error_propagated.1 ⟨3, 0, 1, ["a"]⟩ ⟨.ok ⟨0, 1, ["b"]⟩, 9⟩ 10
    (by decide)

/-- C5: `Init` treats a create failure of the node-exists kind as success —
against the store semantics the existing record is left untouched, and the
absorption happens for any backing store, decided by the error's kind (a
match on the tagged kind, not on message text) — while a create failure of
any other kind is returned to the caller unchanged. -/
theorem init_absorbs_exists_only :
    (∀ st : EtcdStore, (∃ n, st.node = some n) →
      EtcdLockClient.Init specAPI st = (.ok (), st)) ∧
    (∀ (σ : Type) (api : KeysAPI σ) (st st' : σ),
      api.create (marshal initSem) st = (.error .nodeExist, st') →
      EtcdLockClient.Init api st = (.ok (), st')) ∧
    (∀ (σ : Type) (api : KeysAPI σ) (st st' : σ) (e : StoreError),
      api.create (marshal initSem) st = (.error e, st') → e ≠ .nodeExist →
      EtcdLockClient.Init api st = (.error e, st')) := by
  refine ⟨?_, ?_, ?_⟩
  · rintro st ⟨n, hn⟩
    simp [EtcdLockClient.Init, specAPI, hn]
  · intro σ api st st' h
    simp [EtcdLockClient.Init, h]
  · intro σ api st st' e h hne
    cases e <;> simp_all [EtcdLockClient.Init, h]

/-- Witness for C5: a concrete store already holding a record, on which
`Init` succeeds and leaves the store exactly as it was. -/
theorem init_absorbs_exists_only_witness :
    EtcdLockClient.Init specAPI ⟨some ⟨.ok ⟨0, 1, ["a"]⟩, 2⟩, 3⟩ =
      (.ok (), ⟨some ⟨.ok ⟨0, 1, ["a"]⟩, 2⟩, 3⟩) :=
  init_absorbs_exists_only.1 ⟨some ⟨.ok ⟨0, 1, ["a"]⟩, 2⟩, 3⟩
    ⟨⟨.ok ⟨0, 1, ["a"]⟩, 2⟩, rfl⟩

/-- C7: the serialized payload handed to the store carries only the three
record fields and never the version token — `marshal` is independent of
`Index` — and the values `Init` and `Set` hand to the store are exactly
those marshalled payloads, as the call logs show; the version lives only in
the out-of-band `ModifiedIndex` metadata of the store's node. -/
theorem payload_never_embeds_version :
    (∀ s : Semaphore, marshal s = .ok ⟨s.Semaphore, s.Max, s.Holders⟩) ∧
    (∀ (i j : Nat) (a m : Int) (hs : List String),
      marshal ⟨i, a, m, hs⟩ = marshal ⟨j, a, m, hs⟩) ∧
    (∀ (σ : Type) (api : KeysAPI σ) (st : σ),
      (EtcdLockClient.Init (traced api) (st, [])).2.2 =
        [StoreCall.create (marshal initSem)]) ∧
    (∀ (σ : Type) (api : KeysAPI σ) (sem : Semaphore) (st : σ),
      (EtcdLockClient.Set (traced api) (some sem) (st, [])).2.2 =
        [StoreCall.set (marshal sem) sem.Index]) := by
  refine ⟨fun s => rfl, fun i j a m hs => rfl, ?_, ?_⟩
  · intro σ api st
    rcases h : api.create (marshal initSem) st with ⟨r, st'⟩
    rcases r with e | nd
    · cases e <;> simp [EtcdLockClient.Init, traced, h]
    · simp [EtcdLockClient.Init, traced, h]
  · intro σ api sem st
    rcases h : api.set (marshal sem) sem.Index st with ⟨r, st'⟩
    rcases r with e | nd <;> simp [EtcdLockClient.Set, traced, h]

/-- C10: the value `Set` returns to the caller does not depend on the
version the store will assign next (on success it is the bare unit, so the
new version is discarded, never returned), and a successful commit leaves
the semaphore value itself untouched — its `Index` is still the pre-fetch
version — while the store now holds the record under the fresh
store-assigned version `nextIndex`. -/
theorem set_discards_new_version :
    (∀ (sem : Semaphore) (nd : Option Node) (i j : Nat),
      (EtcdLockClient.Set specAPI (some sem) ⟨nd, i⟩).1 =
        (EtcdLockClient.Set specAPI (some sem) ⟨nd, j⟩).1) ∧
    (∀ (sem : Semaphore) (st : EtcdStore),
      (EtcdLockClient.Set specAPI (some sem) st).1 = .ok () →
      (EtcdLockClient.Set specAPI (some sem) st).2 =
        ⟨some ⟨marshal sem, st.nextIndex⟩, st.nextIndex + 1⟩) := by
  constructor
  · intro sem nd i j
    rcases nd with _ | n
    · simp [EtcdLockClient.Set, specAPI]
    · by_cases heq : n.ModifiedIndex = sem.Index <;>
        simp [EtcdLockClient.Set, specAPI, heq]
  · intro sem st h
    rcases hn : st.node with _ | n
    · simp [EtcdLockClient.Set, specAPI, hn] at h
    · by_cases heq : n.ModifiedIndex = sem.Index
      · rcases st with ⟨nd, i⟩
        simp only at hn
        subst hn
        simp [EtcdLockClient.Set, specAPI, heq]
      · simp [EtcdLockClient.Set, specAPI, hn, heq] at h

/-- Witness for C10: a concrete successful commit — the store moves to the
fresh version 6 while the committed payload is the marshalled semaphore. -/
theorem set_discards_new_version_witness :
    (EtcdLockClient.Set specAPI (some ⟨5, 0, 1, ["a"]⟩)
        ⟨some ⟨.ok ⟨1, 1, []⟩, 5⟩, 6⟩).2 =
      ⟨some ⟨marshal ⟨5, 0, 1, ["a"]⟩, 6⟩, 7⟩ :=
  set_discards_new_version.2 ⟨5, 0, 1, ["a"]⟩ ⟨some ⟨.ok ⟨1, 1, []⟩, 5⟩, 6⟩ rfl

/-- The balance condition on a stored payload:
available + number of holders = capacity. -/
def Payload.balanced (p : Payload) : Prop :=
  p.semaphore + (p.holders.length : Int) = p.max

instance (p : Payload) : Decidable p.balanced := by
  unfold Payload.balanced
  infer_instance

/-- The balance condition on a semaphore value. -/
def Semaphore.balanced (s : EtcdSem.Semaphore) : Prop :=
  s.Semaphore + (s.Holders.length : Int) = s.Max

instance (s : EtcdSem.Semaphore) : Decidable s.balanced := by
  unfold Semaphore.balanced
  infer_instance

/-- A store is balanced when whatever well-formed record it holds is. -/
def EtcdStore.balanced (st : EtcdStore) : Prop :=
  ∀ n p, st.node = some n → n.Value = .ok p → p.balanced

/-- One client operation against the shared key, by any of the concurrent
clients: an `Init`, a `Get`, or a `Set` of some semaphore value. -/
inductive ClientOp where
  | opInit
  | opGet
  | opSet (sem : Semaphore)

/-- The effect of one client operation on the store. -/
def runOp (op : ClientOp) (st : EtcdStore) : EtcdStore :=
  match op with
  | .opInit => (EtcdLockClient.Init specAPI st).2
  | .opGet => (EtcdLockClient.Get specAPI st).2
  | .opSet sem => (EtcdLockClient.Set specAPI (some sem) st).2

/-- The store after an arbitrary interleaving of client operations. -/
def runOps (ops : List ClientOp) (st : EtcdStore) : EtcdStore :=
  ops.foldl (fun st op => runOp op st) st

/-- An operation is balanced when any semaphore it commits is. -/
def ClientOp.balanced (op : ClientOp) : Prop :=
  match op with
  | .opSet sem => sem.balanced
  | _ => True

theorem get_does_not_change_store (st : EtcdStore) :
    (EtcdLockClient.Get specAPI st).2 = st := by
  rcases hn : st.node with _ | n
  · simp [EtcdLockClient.Get, specAPI, hn]
  · rcases hv : n.Value with p | s <;>
      simp [EtcdLockClient.Get, specAPI, unmarshal, hn, hv]

theorem runOp_preserves_balance (op : ClientOp) (st : EtcdStore)
    (hst : st.balanced) (hop : op.balanced) : (runOp op st).balanced := by
  rcases op with _ | _ | sem
  · rcases hn : st.node with _ | n
    · rcases st with ⟨nd, i⟩
      simp only at hn
      subst hn
      intro n p hnode hval
      simp [runOp, EtcdLockClient.Init, specAPI, marshal, initSem] at hnode
      subst hnode
      simp only at hval
      rcases hval
      decide
    · simpa [runOp, EtcdLockClient.Init, specAPI, hn] using hst
  · simpa [runOp, get_does_not_change_store st] using hst
  · rcases hn : st.node with _ | n
    · simpa [runOp, EtcdLockClient.Set, specAPI, hn] using hst
    · by_cases heq : n.ModifiedIndex = sem.Index
      · rcases st with ⟨nd, i⟩
        simp only at hn
        subst hn
        intro n' p hnode hval
        simp [runOp, EtcdLockClient.Set, specAPI, heq] at hnode
        subst hnode
        simp only [marshal, EncodedValue.ok.injEq] at hval
        subst hval
        exact hop
      · simpa [runOp, EtcdLockClient.Set, specAPI, hn, heq] using hst

/-- Counterexample to C6 as stated: the client does not validate the
records it is asked to commit.  With the store's record at version 5, a
commit of the unbalanced semaphore ⟨5, 7, 1, []⟩ succeeds and the core
writes the payload ⟨7, 1, []⟩, for which available + holders ≠ capacity. -/
theorem set_writes_unbalanced_record :
    (EtcdLockClient.Set specAPI (some ⟨5, 7, 1, []⟩)
        ⟨some ⟨.ok ⟨1, 1, []⟩, 5⟩, 6⟩).1 = .ok () ∧
    (EtcdLockClient.Set specAPI (some ⟨5, 7, 1, []⟩)
        ⟨some ⟨.ok ⟨1, 1, []⟩, 5⟩, 6⟩).2.node = some ⟨.ok ⟨7, 1, []⟩, 6⟩ ∧
    ¬ (Payload.mk 7 1 []).balanced :=
  ⟨rfl, rfl, by decide⟩

/-- C6 (amended): the record `Init` creates is balanced (1 + 0 = 1), and
for any interleaving of client operations in which every committed
semaphore is balanced, every record the core writes — and hence the final
store — is balanced: the conditional-write protocol introduces no drift. -/
theorem balanced_ops_preserve_balance (ops : List ClientOp) (st : EtcdStore)
    (hst : st.balanced) (hops : ∀ op ∈ ops, op.balanced) :
    (runOps ops st).balanced := by
  induction ops generalizing st with
  | nil => simpa [runOps] using hst
  | cons op ops ih =>
    have h1 : (runOp op st).balanced :=
      runOp_preserves_balance op st hst (hops op (by simp))
    have h2 : ∀ o ∈ ops, o.balanced := fun o ho => hops o (by simp [ho])
    simpa [runOps] using ih (runOp op st) h1 h2

/-- Witness for C6 (amended): a concrete interleaving — two inits, a fetch,
a successful acquire commit, a conflicting stale commit — starting from the
empty store, ending balanced. -/
theorem balanced_ops_preserve_balance_witness :
    (runOps [ClientOp.opInit, ClientOp.opGet, ClientOp.opInit,
        ClientOp.opSet ⟨1, 0, 1, ["a"]⟩, ClientOp.opSet ⟨1, 1, 1, []⟩]
      ⟨none, 1⟩).balanced :=
  balanced_ops_preserve_balance _ _
    (fun n p h _ => by simp at h)
    (by
      intro op hop
      fin_cases hop <;> simp [ClientOp.balanced, Semaphore.balanced])

end EtcdSem
